import Mathlib

/-!
Shallow embedding of the nonce allocator (`client/nonce_tracker.go`) and the
transaction submission queue with confirmation polling (`transfer/queue.go`)
of the `payments` repository, together with proofs settling the spec claims.

Modelling conventions:
* Go `uint64` values are `Nat` together with reduction modulo `2^64` wherever
  the Go code can overflow (the `v++` increment in `GetNonce`).
* `common.Address` is modelled as `Nat`; `common.Hash` as `String` (only its
  identity and its textual form in a wrapped error message matter).
* Go `error` values are the inductive `GoError`; `nil`-able results become
  `Option`/`Except`.
* Channels and goroutines are replaced by explicit state: the worker loop of
  `Queue.Run` becomes pure functions over the list of buffered entries, and
  the three-way `select` inside `checkIfTransactionExists` becomes a
  discrete-time scheduler in which every blocking source has a ready time and
  simultaneous readiness is resolved by an arbitrary choice oracle (Go's
  `select` picks uniformly among ready cases, so theorems quantify over the
  oracle and counterexamples pick a concrete one).
-/

set_option autoImplicit false

namespace Payments

/-- Modulus of Go's `uint64`, the type of account nonces. -/
def U64 : Nat := 2 ^ 64

/-- Go `error` values appearing in the modelled code: the three sentinel
errors declared in `transfer/queue.go` (the misspelling `ErrTrasactionMissing`
is the source's), a constructor for `fmt.Errorf("...: %w", ...)` wrapping, and
opaque errors produced by the chain collaborator or by a caller's send
operation. -/
inductive GoError where
  | errQueueClosed
  | errQueueMissingResult
  | errTrasactionMissing
  | wrapped (msg : String) (inner : GoError)
  | chainError (code : Nat)
  | sendError (code : Nat)
  deriving DecidableEq, Repr

deriving instance DecidableEq for Except

/-- `common.Address` of the account whose nonce is tracked. -/
abbrev Address : Type := Nat

/-- The `nonces map[common.Address]uint64` field: an association list in which
the most recent insertion shadows earlier ones. -/
def NonceMap : Type := List (Address × Nat)

/-- Go map read `nt.nonces[account]`. -/
def lookupNonce (m : NonceMap) (a : Address) : Option Nat :=
  match m with
  | [] => none
  | (b, v) :: rest => if b = a then some v else lookupNonce rest a

/-- Go map write `nt.nonces[account] = v`. -/
def insertNonce (m : NonceMap) (a : Address) (v : Nat) : NonceMap :=
  (a, v) :: m

/-- State of `client.NonceTracker`: the nonce table.  The `ethclient.Client`
collaborator is passed to `GetNonce` as a function, and the mutex disappears
because the embedding is sequential (the lock's only effect is to serialize
the calls). -/
structure NonceTracker where
  nonces : NonceMap

/-- `NewNonceTracker`: empty table. -/
def NewNonceTracker : NonceTracker := ⟨[]⟩

/-- `NonceTracker.GetNonce` (nonce_tracker.go lines 44-61), one serialized
call.  `pendingNonceAt` models the `client.PendingNonceAt(ctx, account)`
collaborator for this call: either an error or the chain's reported pending
nonce, which being a Go `uint64` is assumed `< U64` where it matters.
The cached-entry path performs `v++` on a `uint64`, hence the `% U64`. -/
def GetNonce (pendingNonceAt : Address → Except GoError Nat)
    (nt : NonceTracker) (account : Address) :
    Except GoError Nat × NonceTracker :=
  match lookupNonce nt.nonces account with
  | some v =>
      let v2 := (v + 1) % U64
      (Except.ok v2, ⟨insertNonce nt.nonces account v2⟩)
  | none =>
      match pendingNonceAt account with
      | Except.error e => (Except.error e, nt)
      | Except.ok nonce => (Except.ok nonce, ⟨insertNonce nt.nonces account nonce⟩)

/-- The results of a serialized sequence of `GetNonce` calls, restricted to
the calls made for account `a`; each call supplies the collaborator it sees.
Calls for other accounts still update the shared state. -/
def resultsFor (a : Address) (nt : NonceTracker) :
    List (Address × (Address → Except GoError Nat)) → List (Except GoError Nat)
  | [] => []
  | (b, ch) :: rest =>
      let step := GetNonce ch nt b
      if b = a then step.1 :: resultsFor a step.2 rest
      else resultsFor a step.2 rest

end Payments

namespace Payments

/-- `types.Transaction` as the queue uses it: only `ChainId()` and `Hash()`
are consulted. -/
structure Transaction where
  chainId : Int
  hash : String
  deriving DecidableEq, Repr

/-- `transfer.QueueResponse`: the pair a worker writes to the caller's
response channel. -/
structure QueueResponse where
  tx : Option Transaction
  err : Option GoError
  deriving DecidableEq, Repr

/-- What happened on one caller's response channel: the messages written to
it, in order, and whether it was closed. -/
structure Delivery where
  sent : List QueueResponse
  closed : Bool
  deriving DecidableEq, Repr

/-- `Queue.resp` (queue.go lines 124-130): write one `QueueResponse` to the
channel, then close it. -/
def Queue.resp (tx : Option Transaction) (err : Option GoError) : Delivery :=
  ⟨[⟨tx, err⟩], true⟩

/-- A buffered `queueEntry`.  `id` is the identity of the work item and of
its single-use response channel (distinct callers hold distinct channels);
`exec` is the value the zero-argument `TransactionSendFn` closure returns
when the worker invokes it. -/
structure QueueEntry where
  id : Nat
  exec : Except GoError Transaction
  deriving DecidableEq, Repr

/-- `QueueResponse.Result` (queue.go lines 164-170). -/
def QueueResponse.Result (qr : QueueResponse) :
    Option Transaction × Option GoError :=
  if qr.tx = none ∧ qr.err = none then (none, some GoError.errQueueMissingResult)
  else (qr.tx, qr.err)

/-- The three `select` cases inside `checkIfTransactionExists`
(queue.go lines 105-120): context deadline, queue stop channel, and the
one-second timer. -/
inductive PollEvent where
  | ctxDone
  | stopSignal
  | tick
  deriving DecidableEq, Repr

/-- Time (in seconds from the start of `waitAfterSend`) at which the context
deadline `ctx.Done()` is ready to fire, seen from current time `t`: the
deadline is `timeout`, and once past it stays ready. -/
def ctxReadyTime (timeout t : Nat) : Nat := max timeout t

/-- Time at which the closed `q.stop` channel is ready, seen from current
time `t`; `stopAt` is the absolute time `Stop()` closes the channel (any
value larger than every time the loop is alive models "never stopped"). -/
def stopReadyTime (stopAt t : Nat) : Nat := max stopAt t

/-- Time at which `time.After(time.Second)` armed at time `t` fires. -/
def tickReadyTime (t : Nat) : Nat := t + 1

/-- The instant the `select` unblocks: the earliest ready time. -/
def wakeTime (timeout stopAt t : Nat) : Nat :=
  min (ctxReadyTime timeout t) (min (stopReadyTime stopAt t) (tickReadyTime t))

/-- The `select` cases ready at the wake instant (Go chooses uniformly among
these when several are ready at once). -/
def readyEvents (timeout stopAt t : Nat) : List PollEvent :=
  let w := wakeTime timeout stopAt t
  (if ctxReadyTime timeout t = w then [PollEvent.ctxDone] else [])
    ++ (if stopReadyTime stopAt t = w then [PollEvent.stopSignal] else [])
    ++ (if tickReadyTime t = w then [PollEvent.tick] else [])

/-- Resolution of one `select`: `choose t` is the oracle deciding which of
the simultaneously ready cases wins at time `t`.  `readyEvents` is never
empty, so the default is never consulted. -/
def selectEvent (choose : Nat → Nat) (timeout stopAt t : Nat) : PollEvent :=
  let r := readyEvents timeout stopAt t
  r.getD (choose t % r.length) PollEvent.ctxDone

/-- Outcome of the polling loop: confirmed (`!pending` observed), stop
channel observed, or context deadline expired. -/
inductive PollOutcome where
  | confirmed
  | stopObserved
  | ctxExpired
  deriving DecidableEq, Repr

/-- Trace of one run of the polling loop: its outcome, the time it returned,
and the times at which `bc.TransactionByHash` was called. -/
structure PollTrace where
  outcome : PollOutcome
  finish : Nat
  polls : List Nat
  deriving DecidableEq, Repr

/-- The `for`/`select` loop of `checkIfTransactionExists` (queue.go lines
104-121), fuel-indexed.  `bc chainId hash w` models
`q.bc.TransactionByHash(chainID, txHash)` evaluated at time `w`: an error
(logged and retried on the next tick) or the `isPending` flag.  Returns
`none` only when the fuel runs out, which `pollLoop_isSome` shows cannot
happen from the fuel `checkIfTransactionExists` supplies. -/
def pollLoop (bc : Int → String → Nat → Except GoError Bool)
    (choose : Nat → Nat) (timeout stopAt : Nat) (chainId : Int) (hash : String) :
    Nat → Nat → Option PollTrace
  | 0, _ => none
  | fuel + 1, t =>
    match selectEvent choose timeout stopAt t with
    | PollEvent.ctxDone => some ⟨PollOutcome.ctxExpired, wakeTime timeout stopAt t, []⟩
    | PollEvent.stopSignal => some ⟨PollOutcome.stopObserved, wakeTime timeout stopAt t, []⟩
    | PollEvent.tick =>
      match bc chainId hash (t + 1) with
      | Except.error _ =>
          (pollLoop bc choose timeout stopAt chainId hash fuel (t + 1)).map
            (fun tr => ⟨tr.outcome, tr.finish, (t + 1) :: tr.polls⟩)
      | Except.ok pending =>
          if pending then
            (pollLoop bc choose timeout stopAt chainId hash fuel (t + 1)).map
              (fun tr => ⟨tr.outcome, tr.finish, (t + 1) :: tr.polls⟩)
          else some ⟨PollOutcome.confirmed, t + 1, [t + 1]⟩

/-- `Queue.checkIfTransactionExists` (queue.go lines 103-122): run the loop
from time `0`; the context-deadline outcome becomes the wrapped
`ErrTrasactionMissing` error, the other two return `nil`.  The second
component instruments the times of the `TransactionByHash` calls.  The fuel
`timeout + 1` is sufficient (`pollLoop_isSome`), so the fuel-exhaustion
branch is unreachable. -/
def checkIfTransactionExists (bc : Int → String → Nat → Except GoError Bool)
    (choose : Nat → Nat) (timeout stopAt : Nat) (chainId : Int) (hash : String) :
    Option GoError × List Nat :=
  match pollLoop bc choose timeout stopAt chainId hash (timeout + 1) 0 with
  | some tr =>
    match tr.outcome with
    | PollOutcome.ctxExpired =>
        (some (GoError.wrapped ("transaction \"" ++ hash ++ "\" failed in queue")
          GoError.errTrasactionMissing), tr.polls)
    | _ => (none, tr.polls)
  | none => (none, [])

/-- Finish time of the poller, for the timing part of scenario claims. -/
def checkFinishTime (bc : Int → String → Nat → Except GoError Bool)
    (choose : Nat → Nat) (timeout stopAt : Nat) (chainId : Int) (hash : String) :
    Option Nat :=
  (pollLoop bc choose timeout stopAt chainId hash (timeout + 1) 0).map PollTrace.finish

/-- `Queue.waitAfterSend` (queue.go lines 96-101): arm the context with the
queue's timeout and run `checkIfTransactionExists`. -/
def waitAfterSend (bc : Int → String → Nat → Except GoError Bool)
    (choose : Nat → Nat) (timeout stopAt : Nat) (chainId : Int) (hash : String) :
    Option GoError × List Nat :=
  checkIfTransactionExists bc choose timeout stopAt chainId hash

/-- What the worker did for one work item: which item, what was delivered on
its response channel, whether its send operation was invoked, and the times
of the `TransactionByHash` calls made for it. -/
structure WorkReport where
  id : Nat
  delivery : Delivery
  execCalled : Bool
  polls : List Nat
  deriving DecidableEq, Repr

/-- The worker's handling of one dequeued entry (queue.go lines 83-91):
invoke the send operation; on failure respond with that error and no
transaction, without polling; on success poll via `waitAfterSend` and respond
with the transaction and the poll result. -/
def Run.processEntry (bc : Int → String → Nat → Except GoError Bool)
    (choose : Nat → Nat) (timeout stopAt : Nat) (e : QueueEntry) : WorkReport :=
  match e.exec with
  | Except.error err => ⟨e.id, Queue.resp none (some err), true, []⟩
  | Except.ok tx =>
    let r := waitAfterSend bc choose timeout stopAt tx.chainId tx.hash
    ⟨e.id, Queue.resp (some tx) r.1, true, r.2⟩

/-- The worker's shutdown branch (queue.go lines 76-82): after
`close(q.queue)` every entry still buffered is drained with a closed-queue
response on its channel; no send operation is invoked and no polling done. -/
def Run.drain (buffer : List QueueEntry) : List WorkReport :=
  buffer.map (fun e => ⟨e.id, Queue.resp none (some GoError.errQueueClosed), false, []⟩)

/-- The worker loop over a list of dequeued entries, one report per entry,
in order (queue.go lines 74-94 restricted to the work-item branch). -/
def Run.processAll (bc : Int → String → Nat → Except GoError Bool)
    (choose : Nat → Nat) (timeout stopAt : Nat) :
    List QueueEntry → List WorkReport
  | [] => []
  | e :: rest =>
      Run.processEntry bc choose timeout stopAt e ::
        Run.processAll bc choose timeout stopAt rest

/-- Result of a `TransactionEnqueue` call. -/
inductive EnqueueOutcome where
  | returned (err : Option GoError) (buffer : List QueueEntry)
  | blocked (buffer : List QueueEntry)
  deriving DecidableEq, Repr

/-- `Queue.TransactionEnqueue` (queue.go lines 143-156): if the stop channel
is closed the `select` takes its ready receive case over `default` and the
call returns `ErrQueueClosed` without touching the buffer; otherwise the
entry is pushed onto the buffered channel, blocking when the buffer is at
capacity `size`. -/
def TransactionEnqueue (stopClosed : Bool) (size : Nat)
    (buffer : List QueueEntry) (e : QueueEntry) : EnqueueOutcome :=
  if stopClosed then EnqueueOutcome.returned (some GoError.errQueueClosed) buffer
  else if buffer.length < size then EnqueueOutcome.returned none (buffer ++ [e])
  else EnqueueOutcome.blocked buffer

end Payments

namespace Payments

/-- The chain-state collaborator seen by one `GetNonce` call. -/
abbrev ChainClient : Type := Address → Except GoError Nat

/-- One serialized `GetNonce` call: the account asked for and the
collaborator answering this call's chain query (if any is made). -/
abbrev NonceCall : Type := Address × ChainClient

/-- State of the tracker after a sequence of serialized calls. -/
def applyCalls (nt : NonceTracker) : List NonceCall → NonceTracker
  | [] => nt
  | (b, ch) :: rest => applyCalls (GetNonce ch nt b).2 rest

/-- Number of calls in the sequence addressed to account `a`. -/
def callCount (a : Address) : List NonceCall → Nat
  | [] => 0
  | (b, _) :: rest => (if b = a then 1 else 0) + callCount a rest

/-- The chain-query collaborator of the claim C6 scenario: the polls in the
first three seconds observe pending, later polls observe not-pending; the
query never errors. -/
def scenarioClient : Int → String → Nat → Except GoError Bool :=
  fun _ _ t => Except.ok (decide (t ≤ 3))

theorem lookupNonce_insert_self (m : NonceMap) (a : Address) (v : Nat) :
    lookupNonce (insertNonce m a v) a = some v := by
  simp [insertNonce, lookupNonce]

theorem lookupNonce_insert_ne (m : NonceMap) (a b : Address) (v : Nat)
    (h : b ≠ a) : lookupNonce (insertNonce m b v) a = lookupNonce m a := by
  simp [insertNonce, lookupNonce, h]

/-- A call for account `b` never changes the table entry of another
account `a`. -/
theorem GetNonce_frame (ch : ChainClient) (nt : NonceTracker) (a b : Address)
    (h : b ≠ a) :
    lookupNonce ((GetNonce ch nt b).2).nonces a = lookupNonce nt.nonces a := by
  unfold GetNonce
  cases hl : lookupNonce nt.nonces b with
  | some v => simp [lookupNonce_insert_ne _ _ _ _ h]
  | none =>
    cases hc : ch b with
    | error e => simp
    | ok nonce => simp [lookupNonce_insert_ne _ _ _ _ h]

/-- A prefix of calls none of which is for `a` produces no result for `a`
and leaves `a`'s table entry unchanged. -/
theorem resultsFor_skip (a : Address) :
    ∀ (pre : List NonceCall) (nt : NonceTracker),
      (∀ c ∈ pre, c.1 ≠ a) →
      resultsFor a nt pre = [] ∧
        lookupNonce ((applyCalls nt pre)).nonces a = lookupNonce nt.nonces a
  | [], nt, _ => ⟨rfl, rfl⟩
  | (b, ch) :: rest, nt, h => by
    have hb : b ≠ a := h (b, ch) (List.mem_cons_self _ _)
    have ih := resultsFor_skip a rest (GetNonce ch nt b).2
      (fun c hc => h c (List.mem_cons_of_mem _ hc))
    refine ⟨?_, ?_⟩
    · simpa [resultsFor, hb] using ih.1
    · calc lookupNonce ((applyCalls nt ((b, ch) :: rest))).nonces a
          = lookupNonce ((applyCalls (GetNonce ch nt b).2 rest)).nonces a := rfl
        _ = lookupNonce ((GetNonce ch nt b).2).nonces a := ih.2
        _ = lookupNonce nt.nonces a := GetNonce_frame ch nt a b hb

/-- From a state in which account `a` is cached with value `v < 2^64`, any
further serialized calls give `a` the results
`(v+1) % 2^64, (v+2) % 2^64, ...`, one per call for `a`, regardless of how
calls for other accounts are interleaved. -/
theorem resultsFor_seeded (a : Address) (calls : List NonceCall) :
    ∀ (nt : NonceTracker) (v : Nat),
      lookupNonce nt.nonces a = some v → v < U64 →
      resultsFor a nt calls =
        (List.range (callCount a calls)).map
          (fun j => Except.ok ((v + 1 + j) % U64)) := by
  induction calls with
  | nil =>
    intro nt v hv hvlt
    simp [resultsFor, callCount]
  | cons c rest ih =>
    obtain ⟨b, ch⟩ := c
    intro nt v hv hvlt
    by_cases hb : b = a
    · subst hb
      have hstep : GetNonce ch nt b =
          (Except.ok ((v + 1) % U64), ⟨insertNonce nt.nonces b ((v + 1) % U64)⟩) := by
        unfold GetNonce
        simp [hv]
      have hlook :
          lookupNonce ((GetNonce ch nt b).2).nonces b = some ((v + 1) % U64) := by
        rw [hstep]
        exact lookupNonce_insert_self _ _ _
      have ihb := ih (GetNonce ch nt b).2 ((v + 1) % U64)
        hlook (Nat.mod_lt _ (by simp [U64]))
      have hcount : callCount b ((b, ch) :: rest) = callCount b rest + 1 := by
        simp [callCount, Nat.add_comm]
      have hrange : List.range (callCount b rest + 1) =
          0 :: (List.range (callCount b rest)).map Nat.succ :=
        List.range_succ_eq_map _
      have harith : ∀ j : Nat,
          ((v + 1) % U64 + 1 + j) % U64 = (v + 1 + Nat.succ j) % U64 := by
        intro j
        rw [Nat.add_assoc, Nat.mod_add_mod]
        congr 1
        omega
      rw [hcount, hrange]
      simp only [resultsFor, List.map_cons, List.map_map, if_true]
      rw [ihb]
      congr 1
      · rw [hstep]
      · rw [List.map_eq_map_iff]
        intro j _
        simp only [Function.comp_apply]
        exact congrArg Except.ok (harith j)
    · have hbne : b ≠ a := hb
      have hlook : lookupNonce ((GetNonce ch nt b).2).nonces a = some v := by
        rw [GetNonce_frame ch nt a b hbne]; exact hv
      have ihb := ih (GetNonce ch nt b).2 v hlook hvlt
      have hcount : callCount a ((b, ch) :: rest) = callCount a rest := by
        simp [callCount, hb]
      rw [hcount]
      simpa [resultsFor, hbne] using ihb

/-- `resultsFor` splits over concatenation of call sequences. -/
theorem resultsFor_append (a : Address) (l1 : List NonceCall) :
    ∀ (l2 : List NonceCall) (nt : NonceTracker),
      resultsFor a nt (l1 ++ l2) =
        resultsFor a nt l1 ++ resultsFor a (applyCalls nt l1) l2 := by
  induction l1 with
  | nil =>
    intro l2 nt
    simp [resultsFor, applyCalls]
  | cons c t ih =>
    obtain ⟨b, ch⟩ := c
    intro l2 nt
    by_cases hb : b = a <;>
      simp [resultsFor, applyCalls, hb, ih]

/-- Claim C1 counterexample: the chain may legitimately report the maximal
`uint64` pending nonce `2^64 - 1`; the first call returns it, and the second
call's `uint64` increment `v++` wraps, returning `0` rather than the claimed
`p + k - 1 = 2^64`.  So the issued values are not `p, p+1, p+2, ...`. -/
theorem claim1_counterexample :
    (resultsFor 0 NewNonceTracker
        [(0, fun _ => Except.ok (U64 - 1)), (0, fun _ => Except.ok (U64 - 1))]).get? 1
      = some (Except.ok 0)
    ∧ (Except.ok 0 : Except GoError Nat) ≠ Except.ok (U64 - 1 + 2 - 1) := by
  refine ⟨by decide, by decide⟩

/-- Claim C1 (amended): for a fresh account `a` whose first chain query
reports pending nonce `p`, the k-th serialized `GetNonce` call for `a`
(calls for other accounts interleaved arbitrarily) returns
`(p + k - 1) % 2^64` with no error — i.e. the claimed `p, p+1, p+2, ...`
sequence holds up to the `uint64` wraparound of the `v++` increment. -/
theorem claim1_nonce_sequence_mod (nt0 : NonceTracker) (a : Address)
    (p k : Nat) (pre post : List NonceCall) (ch : ChainClient)
    (hfresh : lookupNonce nt0.nonces a = none)
    (hpre : ∀ c ∈ pre, c.1 ≠ a)
    (hp : ch a = Except.ok p) (hplt : p < U64)
    (hk1 : 1 ≤ k) (hk2 : k ≤ 1 + callCount a post) :
    (resultsFor a nt0 (pre ++ (a, ch) :: post)).get? (k - 1) =
      some (Except.ok ((p + k - 1) % U64)) := by
  have hskip := resultsFor_skip a pre nt0 hpre
  rw [resultsFor_append a pre ((a, ch) :: post) nt0, hskip.1, List.nil_append]
  have hfresh1 : lookupNonce (applyCalls nt0 pre).nonces a = none := by
    rw [hskip.2]; exact hfresh
  have hstep : GetNonce ch (applyCalls nt0 pre) a =
      (Except.ok p, ⟨insertNonce (applyCalls nt0 pre).nonces a p⟩) := by
    unfold GetNonce
    simp [hfresh1, hp]
  have hlook :
      lookupNonce ((GetNonce ch (applyCalls nt0 pre) a).2).nonces a = some p := by
    rw [hstep]
    exact lookupNonce_insert_self _ _ _
  have hseed := resultsFor_seeded a post (GetNonce ch (applyCalls nt0 pre) a).2
    p hlook hplt
  have hcons : resultsFor a (applyCalls nt0 pre) ((a, ch) :: post) =
      Except.ok p ::
        (List.range (callCount a post)).map
          (fun j => Except.ok ((p + 1 + j) % U64)) := by
    simp only [resultsFor, if_true]
    rw [hseed]
    congr 1
    rw [hstep]
  rw [hcons]
  rcases Nat.lt_or_ge k 2 with hk | hk
  · have hk1' : k = 1 := by omega
    subst hk1'
    have hmod : (p + 1 - 1) % U64 = p := by
      have h' : p + 1 - 1 = p := by omega
      rw [h']
      exact Nat.mod_eq_of_lt hplt
    rw [hmod]
    rfl
  · obtain ⟨m, rfl⟩ : ∃ m, k = m + 2 := ⟨k - 2, by omega⟩
    have hm : m < callCount a post := by omega
    have hidx : m + 2 - 1 = m + 1 := by omega
    rw [hidx, List.get?_cons_succ, List.get?_map, List.get?_range hm]
    have : p + 1 + m = p + (m + 2) - 1 := by omega
    simp [this]

/-- Witness for the amended claim C1 at a concrete input: fresh account `0`,
chain reports pending nonce `5`, two calls; the second returns
`(5 + 2 - 1) % 2^64 = 6`. -/
theorem claim1_nonce_sequence_mod_witness :
    (resultsFor 0 NewNonceTracker
        ([] ++ (0, fun _ => Except.ok 5) :: [(0, fun _ => Except.ok 5)])).get? (2 - 1)
      = some (Except.ok ((5 + 2 - 1) % U64)) :=
  claim1_nonce_sequence_mod NewNonceTracker 0 5 2 [] [(0, fun _ => Except.ok 5)]
    (fun _ => Except.ok 5) rfl (by simp) rfl (by decide) (by decide)
    (by simp [callCount])

/-- Claim C8 (confirmed): a `GetNonce` call for an uncached account whose
chain query fails returns that error and leaves the table without an entry
for the account, so the next call queries the chain again. -/
theorem claim8_fresh_chain_error (nt : NonceTracker) (ch : ChainClient)
    (a : Address) (e : GoError)
    (hfresh : lookupNonce nt.nonces a = none)
    (hch : ch a = Except.error e) :
    GetNonce ch nt a = (Except.error e, nt)
      ∧ lookupNonce ((GetNonce ch nt a).2).nonces a = none := by
  have h : GetNonce ch nt a = (Except.error e, nt) := by
    unfold GetNonce
    simp [hfresh, hch]
  exact ⟨h, by rw [h]; exact hfresh⟩

/-- Witness for claim C8 at a concrete input: an empty tracker and a chain
query failing with `chainError 7`. -/
theorem claim8_fresh_chain_error_witness :
    GetNonce (fun _ => Except.error (GoError.chainError 7)) NewNonceTracker 0
        = (Except.error (GoError.chainError 7), NewNonceTracker)
      ∧ lookupNonce
          ((GetNonce (fun _ => Except.error (GoError.chainError 7))
            NewNonceTracker 0).2).nonces 0 = none :=
  claim8_fresh_chain_error NewNonceTracker
    (fun _ => Except.error (GoError.chainError 7)) 0 (GoError.chainError 7)
    rfl rfl

/-- Claim C10 counterexample: starting from the chain reporting pending
nonce `2^64 - 1`, the next successful call stores `0` in the table, strictly
below the previously stored `2^64 - 1` — the stored nonce does decrease. -/
theorem claim10_counterexample :
    lookupNonce ((GetNonce (fun _ => Except.ok (U64 - 1))
        NewNonceTracker 0).2).nonces 0 = some (U64 - 1)
    ∧ (GetNonce (fun _ => Except.ok 0)
        ((GetNonce (fun _ => Except.ok (U64 - 1)) NewNonceTracker 0).2) 0).1
      = Except.ok 0
    ∧ lookupNonce ((GetNonce (fun _ => Except.ok 0)
        ((GetNonce (fun _ => Except.ok (U64 - 1)) NewNonceTracker 0).2) 0).2).nonces 0
      = some 0
    ∧ 0 < U64 - 1 := by
  refine ⟨by decide, by decide, by decide, by decide⟩

/-- Claim C10 (amended): after every `GetNonce` call returning `(n, nil)`
for an account, the table entry for that account equals exactly `n`; and a
stored entry never decreases across any call as long as its increment stays
below `2^64` (incrementing the maximal `uint64` value wraps to `0`). -/
theorem claim10_entry_tracks_result (ch : ChainClient) (nt : NonceTracker)
    (a : Address) :
    (∀ n : Nat, (GetNonce ch nt a).1 = Except.ok n →
        lookupNonce ((GetNonce ch nt a).2).nonces a = some n)
    ∧ (∀ (b : Address) (v v' : Nat), lookupNonce nt.nonces b = some v →
        v + 1 < U64 → lookupNonce ((GetNonce ch nt a).2).nonces b = some v' →
        v ≤ v') := by
  constructor
  · intro n hn
    unfold GetNonce at hn ⊢
    cases hl : lookupNonce nt.nonces a with
    | some v =>
      simp [hl] at hn ⊢
      rw [← hn]
      exact lookupNonce_insert_self _ _ _
    | none =>
      cases hc : ch a with
      | error e => simp [hl, hc] at hn
      | ok m =>
        simp [hl, hc] at hn ⊢
        rw [← hn]
        exact lookupNonce_insert_self _ _ _
  · intro b v v' hv hlt hv'
    by_cases hab : a = b
    · subst hab
      have hstep : GetNonce ch nt a =
          (Except.ok ((v + 1) % U64), ⟨insertNonce nt.nonces a ((v + 1) % U64)⟩) := by
        unfold GetNonce
        simp [hv]
      rw [hstep] at hv'
      rw [lookupNonce_insert_self] at hv'
      rw [Nat.mod_eq_of_lt hlt] at hv'
      have h3 := Option.some.inj hv'
      omega
    · rw [GetNonce_frame ch nt b a hab, hv] at hv'
      have h3 := Option.some.inj hv'
      omega

/-- Witness for claim C10 at a concrete input: a tracker caching nonce `5`
for account `0`; the call returns `6`, stores `6`, and `5 ≤ 6`. -/
theorem claim10_entry_tracks_result_witness :
    lookupNonce ((GetNonce (fun _ => Except.ok 11)
        ⟨[(0, 5)]⟩ 0).2).nonces 0 = some 6
      ∧ (5 : Nat) ≤ 6 :=
  ⟨(claim10_entry_tracks_result (fun _ => Except.ok 11) ⟨[(0, 5)]⟩ 0).1 6
      (by decide),
   (claim10_entry_tracks_result (fun _ => Except.ok 11) ⟨[(0, 5)]⟩ 0).2 0 5 6
      (by decide) (by decide) (by decide)⟩

/-- At every wake instant at least one `select` case is ready. -/
theorem readyEvents_ne_nil (timeout stopAt t : Nat) :
    readyEvents timeout stopAt t ≠ [] := by
  simp only [readyEvents, wakeTime, ctxReadyTime, stopReadyTime, tickReadyTime]
  split_ifs <;> try simp
  omega

/-- The resolved `select` case is one of the ready cases, whichever oracle
resolves the tie. -/
theorem selectEvent_mem (choose : Nat → Nat) (timeout stopAt t : Nat) :
    selectEvent choose timeout stopAt t ∈ readyEvents timeout stopAt t := by
  simp only [selectEvent]
  have h := readyEvents_ne_nil timeout stopAt t
  have hlen : 0 < (readyEvents timeout stopAt t).length :=
    List.length_pos.mpr h
  have hidx : choose t % (readyEvents timeout stopAt t).length
      < (readyEvents timeout stopAt t).length := Nat.mod_lt _ hlen
  rw [List.getD_eq_getElem _ _ hidx]
  exact List.getElem_mem hidx

/-- The context-deadline case is ready only when its ready time is the wake
time. -/
theorem ctx_mem_ready (timeout stopAt t : Nat)
    (h : PollEvent.ctxDone ∈ readyEvents timeout stopAt t) :
    ctxReadyTime timeout t = wakeTime timeout stopAt t := by
  simp only [readyEvents] at h
  split_ifs at h <;> simp_all

/-- The timer case is ready only when its ready time is the wake time. -/
theorem tick_mem_ready (timeout stopAt t : Nat)
    (h : PollEvent.tick ∈ readyEvents timeout stopAt t) :
    tickReadyTime t = wakeTime timeout stopAt t := by
  simp only [readyEvents] at h
  split_ifs at h <;> simp_all

/-- While the stop signal fires strictly before the context deadline, the
polling loop can never take the deadline case: every run that returns within
the given fuel ends in confirmation or in the stop signal. -/
theorem pollLoop_no_ctx (bc : Int → String → Nat → Except GoError Bool)
    (choose : Nat → Nat) (timeout stopAt : Nat) (chainId : Int) (hash : String)
    (hst : stopAt < timeout) :
    ∀ (fuel t : Nat), t ≤ stopAt →
      ∀ tr, pollLoop bc choose timeout stopAt chainId hash fuel t = some tr →
        tr.outcome ≠ PollOutcome.ctxExpired := by
  intro fuel
  induction fuel with
  | zero =>
    intro t ht tr htr
    simp [pollLoop] at htr
  | succ n ih =>
    intro t ht tr htr
    rw [pollLoop] at htr
    split at htr
    · -- ctxDone selected: impossible while t ≤ stopAt < timeout
      rename_i hsel
      exfalso
      have hmem := selectEvent_mem choose timeout stopAt t
      rw [hsel] at hmem
      have heq := ctx_mem_ready timeout stopAt t hmem
      simp only [ctxReadyTime, wakeTime, stopReadyTime, tickReadyTime] at heq
      omega
    · -- stopSignal selected
      obtain rfl := (Option.some.inj htr)
      simp
    · -- tick selected
      rename_i hsel
      have hmem := selectEvent_mem choose timeout stopAt t
      rw [hsel] at hmem
      have heq := tick_mem_ready timeout stopAt t hmem
      simp only [tickReadyTime, wakeTime, ctxReadyTime, stopReadyTime] at heq
      have ht1 : t + 1 ≤ stopAt := by omega
      split at htr
      · -- TransactionByHash errored: logged, loop continues
        rw [Option.map_eq_some'] at htr
        obtain ⟨tr', htr', rfl⟩ := htr
        exact ih (t + 1) ht1 tr' htr'
      · -- TransactionByHash answered with the pending flag
        split at htr
        · rw [Option.map_eq_some'] at htr
          obtain ⟨tr', htr', rfl⟩ := htr
          exact ih (t + 1) ht1 tr' htr'
        · obtain rfl := (Option.some.inj htr)
          simp

/-- Claim C7 counterexample: with the confirmation deadline at 2 seconds and
the stop channel closed at that same instant while polling is still in
progress (the chain keeps reporting pending), Go's `select` may resolve the
simultaneous readiness in favour of the expired context, and the poller then
returns the wrapped `ErrTrasactionMissing` error rather than `nil`. -/
theorem claim7_counterexample :
    (checkIfTransactionExists (fun _ _ _ => Except.ok true) (fun _ => 0)
        2 2 1 "h").1
      = some (GoError.wrapped "transaction \"h\" failed in queue"
          GoError.errTrasactionMissing) := by
  decide

/-- Claim C7 (amended): if the queue-wide shutdown signal fires strictly
before the confirmation deadline, the poller returns no error (`nil`),
whatever the chain reports, however `select` ties are resolved, and whether
or not confirmation happened first. -/
theorem claim7_stop_cancels_polling (bc : Int → String → Nat → Except GoError Bool)
    (choose : Nat → Nat) (timeout stopAt : Nat) (chainId : Int) (hash : String)
    (h : stopAt < timeout) :
    (checkIfTransactionExists bc choose timeout stopAt chainId hash).1 = none := by
  unfold checkIfTransactionExists
  cases hp : pollLoop bc choose timeout stopAt chainId hash (timeout + 1) 0 with
  | none => rfl
  | some tr =>
    have hne := pollLoop_no_ctx bc choose timeout stopAt chainId hash h
      (timeout + 1) 0 (Nat.zero_le _) tr hp
    cases htro : tr.outcome with
    | ctxExpired => exact absurd htro hne
    | confirmed => simp [htro]
    | stopObserved => simp [htro]

/-- Witness for the amended claim C7: deadline 5 seconds, stop at 1 second,
chain always pending; the poller returns `nil`. -/
theorem claim7_stop_cancels_polling_witness :
    (checkIfTransactionExists (fun _ _ _ => Except.ok true) (fun _ => 0)
        5 1 1 "h").1 = none :=
  claim7_stop_cancels_polling (fun _ _ _ => Except.ok true) (fun _ => 0)
    5 1 1 "h" (by decide)

/-- Claim C3 (confirmed): on the shutdown signal the worker delivers to
every entry still buffered exactly one closed-queue `ErrQueueClosed`
response with no transaction handle, on that entry's own channel, closing
it, without invoking any send operation; no buffered item is dropped, and a
concurrently attempted enqueue is rejected with `ErrQueueClosed`. -/
theorem claim3_shutdown_drain (buffer : List QueueEntry) (size : Nat)
    (e : QueueEntry) :
    Run.drain buffer =
      buffer.map (fun x =>
        ⟨x.id, Queue.resp none (some GoError.errQueueClosed), false, []⟩)
    ∧ (Run.drain buffer).length = buffer.length
    ∧ TransactionEnqueue true size buffer e =
        EnqueueOutcome.returned (some GoError.errQueueClosed) buffer := by
  refine ⟨rfl, ?_, rfl⟩
  simp [Run.drain]

/-- Claim C4 (confirmed): once the stop signal has been triggered,
`TransactionEnqueue` returns `ErrQueueClosed` at once, the buffer is
unchanged (the item is not placed into it), and the worker — which only ever
invokes the send operations of buffered entries — never executes the
rejected item's send operation. -/
theorem claim4_enqueue_after_stop (size : Nat) (buffer : List QueueEntry)
    (e : QueueEntry) (bc : Int → String → Nat → Except GoError Bool)
    (choose : Nat → Nat) (timeout stopAt : Nat) :
    TransactionEnqueue true size buffer e =
      EnqueueOutcome.returned (some GoError.errQueueClosed) buffer
    ∧ (Run.processAll bc choose timeout stopAt buffer).map WorkReport.id =
        buffer.map QueueEntry.id
    ∧ (e.id ∉ buffer.map QueueEntry.id →
        e.id ∉ (Run.processAll bc choose timeout stopAt buffer).map WorkReport.id) := by
  have hids : ∀ l : List QueueEntry,
      (Run.processAll bc choose timeout stopAt l).map WorkReport.id =
        l.map QueueEntry.id := by
    intro l
    induction l with
    | nil => rfl
    | cons x rest ih =>
      simp only [Run.processAll, List.map_cons, ih]
      congr 1
      unfold Run.processEntry
      cases x.exec <;> rfl
  exact ⟨rfl, hids buffer, fun hmem => by rw [hids buffer]; exact hmem⟩

/-- Witness for claim C4's conditional part at a concrete input: an item
with id `9` not in a one-entry buffer. -/
theorem claim4_enqueue_after_stop_witness :
    TransactionEnqueue true 1 [⟨1, Except.error (GoError.sendError 0)⟩]
        ⟨9, Except.error (GoError.sendError 0)⟩
      = EnqueueOutcome.returned (some GoError.errQueueClosed)
          [⟨1, Except.error (GoError.sendError 0)⟩]
    ∧ (9 : Nat) ∉ (Run.processAll (fun _ _ _ => Except.ok true) (fun _ => 0) 1 1
        [⟨1, Except.error (GoError.sendError 0)⟩]).map WorkReport.id :=
  ⟨(claim4_enqueue_after_stop 1 [⟨1, Except.error (GoError.sendError 0)⟩]
      ⟨9, Except.error (GoError.sendError 0)⟩
      (fun _ _ _ => Except.ok true) (fun _ => 0) 1 1).1,
   (claim4_enqueue_after_stop 1 [⟨1, Except.error (GoError.sendError 0)⟩]
      ⟨9, Except.error (GoError.sendError 0)⟩
      (fun _ _ _ => Except.ok true) (fun _ => 0) 1 1).2.2 (by decide)⟩

/-- Claim C9 counterexample: a `QueueResponse` whose stored error is itself
`ErrQueueMissingResult` (and whose transaction is absent) is not the
both-absent response, yet `Result()` returns `ErrQueueMissingResult` for it,
because `Result()` passes the stored error through verbatim. -/
theorem claim9_counterexample :
    ¬((⟨none, some GoError.errQueueMissingResult⟩ : QueueResponse).tx = none
        ∧ (⟨none, some GoError.errQueueMissingResult⟩ : QueueResponse).err = none)
    ∧ (QueueResponse.Result ⟨none, some GoError.errQueueMissingResult⟩).2
        = some GoError.errQueueMissingResult := by
  refine ⟨by decide, by decide⟩

/-- Claim C9 (amended): `Result()` on a response with both the transaction
and the error absent returns `ErrQueueMissingResult`; on every other
response it returns the stored pair verbatim — so it yields
`ErrQueueMissingResult` only in the both-absent case or when that very error
was stored as the response's error. -/
theorem claim9_missing_result (qr : QueueResponse) :
    (qr.tx = none ∧ qr.err = none →
      qr.Result = (none, some GoError.errQueueMissingResult))
    ∧ (¬(qr.tx = none ∧ qr.err = none) → qr.Result = (qr.tx, qr.err)) := by
  constructor
  · intro h
    unfold QueueResponse.Result
    rw [if_pos h]
  · intro h
    unfold QueueResponse.Result
    rw [if_neg h]

/-- Witness for the amended claim C9 at concrete inputs: the both-absent
response yields the missing-result error; a response carrying
`ErrQueueClosed` is returned verbatim. -/
theorem claim9_missing_result_witness :
    QueueResponse.Result ⟨none, none⟩ = (none, some GoError.errQueueMissingResult)
    ∧ QueueResponse.Result ⟨none, some GoError.errQueueClosed⟩
        = (none, some GoError.errQueueClosed) :=
  ⟨(claim9_missing_result ⟨none, none⟩).1 (by decide),
   (claim9_missing_result ⟨none, some GoError.errQueueClosed⟩).2 (by decide)⟩

/-- Claim C2 counterexample: a send operation succeeding with a transaction,
a chain that keeps reporting pending, and a 1-second confirmation timeout.
The timeout elapses, and the delivered response carries the timeout failure
together with the transaction handle (queue.go line 91 passes `tx` along
with the error), not "a failure with no transaction handle" as claimed. -/
theorem claim2_counterexample :
    (Run.processEntry (fun _ _ _ => Except.ok true) (fun _ => 0) 1 1000
        ⟨7, Except.ok ⟨1, "0xBB"⟩⟩).delivery.sent
      = [⟨some ⟨1, "0xBB"⟩,
          some (GoError.wrapped "transaction \"0xBB\" failed in queue"
            GoError.errTrasactionMissing)⟩]
    ∧ ((Run.processEntry (fun _ _ _ => Except.ok true) (fun _ => 0) 1 1000
        ⟨7, Except.ok ⟨1, "0xBB"⟩⟩).delivery.sent.map QueueResponse.tx)
      ≠ [none] := by
  refine ⟨by decide, by decide⟩

/-- Claim C2 (amended): for every work item whose send operation succeeds,
the worker delivers exactly one `QueueResponse` on the item's channel and
then closes it; the response carries the transaction handle and no failure
when confirmation polling reports success, and carries the transaction
handle together with the poll failure when the confirmation timeout elapses
(the code does not drop the handle on timeout). -/
theorem claim2_success_delivery (bc : Int → String → Nat → Except GoError Bool)
    (choose : Nat → Nat) (timeout stopAt : Nat)
    (e : QueueEntry) (tx : Transaction) (h : e.exec = Except.ok tx) :
    (Run.processEntry bc choose timeout stopAt e).delivery.sent.length = 1
    ∧ (Run.processEntry bc choose timeout stopAt e).delivery.closed = true
    ∧ ((waitAfterSend bc choose timeout stopAt tx.chainId tx.hash).1 = none →
        (Run.processEntry bc choose timeout stopAt e).delivery.sent
          = [⟨some tx, none⟩])
    ∧ (∀ err : GoError,
        (waitAfterSend bc choose timeout stopAt tx.chainId tx.hash).1 = some err →
        (Run.processEntry bc choose timeout stopAt e).delivery.sent
          = [⟨some tx, some err⟩]) := by
  obtain ⟨i, ex⟩ := e
  simp only at h
  subst h
  refine ⟨rfl, rfl, ?_, ?_⟩
  · intro hnone
    simp [Run.processEntry, Queue.resp, hnone]
  · intro err herr
    simp [Run.processEntry, Queue.resp, herr]

/-- Witness for the amended claim C2 at a concrete input: the chain reports
not-pending at the first poll, so the response is the handle with no
failure. -/
theorem claim2_success_delivery_witness :
    (Run.processEntry (fun _ _ _ => Except.ok false) (fun _ => 0) 5 1000
        ⟨3, Except.ok ⟨1, "0xCC"⟩⟩).delivery.sent
      = [⟨some ⟨1, "0xCC"⟩, none⟩] :=
  (claim2_success_delivery (fun _ _ _ => Except.ok false) (fun _ => 0) 5 1000
      ⟨3, Except.ok ⟨1, "0xCC"⟩⟩ ⟨1, "0xCC"⟩ rfl).2.2.1 (by decide)

/-- Claim C5 (confirmed): when the send operation fails, the worker delivers
exactly that error verbatim with no transaction handle, makes no
`TransactionByHash` call for the item (its poll list is empty), and the
loop continues with the next item. -/
theorem claim5_send_failure (bc : Int → String → Nat → Except GoError Bool)
    (choose : Nat → Nat) (timeout stopAt : Nat)
    (e : QueueEntry) (err : GoError) (rest : List QueueEntry)
    (h : e.exec = Except.error err) :
    Run.processEntry bc choose timeout stopAt e
      = ⟨e.id, Queue.resp none (some err), true, []⟩
    ∧ Run.processAll bc choose timeout stopAt (e :: rest)
        = ⟨e.id, Queue.resp none (some err), true, []⟩ ::
            Run.processAll bc choose timeout stopAt rest := by
  obtain ⟨i, ex⟩ := e
  simp only at h
  subst h
  exact ⟨rfl, rfl⟩

/-- Witness for claim C5 at a concrete input: a send operation failing with
`sendError 9`. -/
theorem claim5_send_failure_witness :
    Run.processEntry (fun _ _ _ => Except.ok true) (fun _ => 0) 2 1000
        ⟨4, Except.error (GoError.sendError 9)⟩
      = ⟨4, Queue.resp none (some (GoError.sendError 9)), true, []⟩
    ∧ Run.processAll (fun _ _ _ => Except.ok true) (fun _ => 0) 2 1000
        [⟨4, Except.error (GoError.sendError 9)⟩]
      = [⟨4, Queue.resp none (some (GoError.sendError 9)), true, []⟩] :=
  claim5_send_failure (fun _ _ _ => Except.ok true) (fun _ => 0) 2 1000
    ⟨4, Except.error (GoError.sendError 9)⟩ (GoError.sendError 9) [] rfl

/-- Claim C6 counterexample: in the claimed scenario (capacity 1, timeout 2
seconds, pending for the first 3 polls, send succeeds with hash `0xAA`) the
2-second context deadline expires before any non-pending observation, so
the delivered result carries the wrapped `ErrTrasactionMissing` failure —
not "handle `0xAA` and no failure" — and is delivered at 2 seconds, not 3. -/
theorem claim6_counterexample :
    ((Run.processEntry scenarioClient (fun _ => 0) 2 1000
        ⟨0, Except.ok ⟨1, "0xAA"⟩⟩).delivery.sent.map QueueResponse.err)
      = [some (GoError.wrapped "transaction \"0xAA\" failed in queue"
          GoError.errTrasactionMissing)]
    ∧ checkFinishTime scenarioClient (fun _ => 0) 2 1000 1 "0xAA" = some 2 := by
  refine ⟨by decide, by decide⟩

/-- Claim C6 (amended): in the claimed scenario the Result is delivered at
2 seconds (when the confirmation timeout elapses), carrying handle `0xAA`
together with the unconfirmed-transaction failure, for every resolution of
the simultaneous timer/deadline readiness in the `select`. -/
theorem claim6_scenario_timeout (choose : Nat → Nat) :
    (Run.processEntry scenarioClient choose 2 1000
        ⟨0, Except.ok ⟨1, "0xAA"⟩⟩).delivery
      = Queue.resp (some ⟨1, "0xAA"⟩)
          (some (GoError.wrapped "transaction \"0xAA\" failed in queue"
            GoError.errTrasactionMissing))
    ∧ checkFinishTime scenarioClient choose 2 1000 1 "0xAA" = some 2 := by
  have hr0 : readyEvents 2 1000 0 = [PollEvent.tick] := by decide
  have hr1 : readyEvents 2 1000 1 = [PollEvent.ctxDone, PollEvent.tick] := by
    decide
  have hr2 : readyEvents 2 1000 2 = [PollEvent.ctxDone] := by decide
  have hs0 : selectEvent choose 2 1000 0 = PollEvent.tick := by
    simp [selectEvent, hr0, Nat.mod_one]
  have hs2 : selectEvent choose 2 1000 2 = PollEvent.ctxDone := by
    simp [selectEvent, hr2, Nat.mod_one]
  have hw1 : wakeTime 2 1000 1 = 2 := by decide
  have hw2 : wakeTime 2 1000 2 = 2 := by decide
  have hp : pollLoop scenarioClient choose 2 1000 1 "0xAA" 3 0 =
      some ⟨PollOutcome.ctxExpired, 2, [1]⟩ ∨
      pollLoop scenarioClient choose 2 1000 1 "0xAA" 3 0 =
      some ⟨PollOutcome.ctxExpired, 2, [1, 2]⟩ := by
    rcases Nat.mod_two_eq_zero_or_one (choose 1) with h1 | h1
    · have hs1 : selectEvent choose 2 1000 1 = PollEvent.ctxDone := by
        simp [selectEvent, hr1, h1]
      left
      simp [pollLoop, hs0, hs1, scenarioClient, hw1]
    · have hs1 : selectEvent choose 2 1000 1 = PollEvent.tick := by
        simp [selectEvent, hr1, h1]
      right
      simp [pollLoop, hs0, hs1, hs2, scenarioClient, hw2]
  rcases hp with hp | hp <;>
    exact ⟨by simp [Run.processEntry, waitAfterSend, checkIfTransactionExists,
            hp, Queue.resp],
          by simp [checkFinishTime, hp]⟩

end Payments
